import Mathlib

/-!
Shallow embedding of the rank/permission logic, the duration parsers and the
temporary-action scheduling of the hypergriot Telegram moderation bots
(src/main.py, src/core.py, src/modules/admin.py, src/Modules/adminstool.py).
Python dict literals become if-chains on the keys, the sqlite users table
becomes an association list keyed by user id, and Python `int()` is modelled
for base 10 (sign, surrounding whitespace, underscore-grouped ASCII digits).
-/

namespace Hypergriot

/-- main.py lines 32-38: the RANKS dict with owner 5, dev 4, admin 3, sudo 2,
user 1; `mainRanksGet k d` embeds `RANKS.get(k, d)`. -/
def mainRanksGet (k : String) (d : Nat) : Nat :=
  if k = "owner" then 5
  else if k = "dev" then 4
  else if k = "admin" then 3
  else if k = "sudo" then 2
  else if k = "user" then 1
  else d

/-- main.py setrank_command line 390: `new_rank not in RANKS` is key membership in
the RANKS dict. -/
def mainRanksMem (k : String) : Bool :=
  k = "owner" || k = "dev" || k = "admin" || k = "sudo" || k = "user"

/-- modules/admin.py check_rank lines 31-37: its local RANKS dict, the same
table as main.py's. -/
def adminRanksGet (k : String) (d : Nat) : Nat :=
  if k = "owner" then 5
  else if k = "dev" then 4
  else if k = "admin" then 3
  else if k = "sudo" then 2
  else if k = "user" then 1
  else d

/-- core.py TelegramBot.check_rank lines 300-302: `rank_hierarchy` with
user 1, support 2, sudo 3, dev 4, owner 5. -/
def coreRanksGet (k : String) (d : Nat) : Nat :=
  if k = "user" then 1
  else if k = "support" then 2
  else if k = "sudo" then 3
  else if k = "dev" then 4
  else if k = "owner" then 5
  else d

/-- Key membership in core.py's rank_hierarchy dict. -/
def coreRanksMem (k : String) : Bool :=
  k = "user" || k = "support" || k = "sudo" || k = "dev" || k = "owner"

/-- The users table of main.py's Database: user_id is the primary key, rank the
only column the rank logic reads. -/
structure DB where
  rows : List (Int × String)
  deriving DecidableEq

/-- main.py line 80: `SELECT rank FROM users WHERE user_id = ?`. -/
def DB.lookup (db : DB) (uid : Int) : Option String :=
  (db.rows.find? (fun p => p.1 == uid)).map (fun p => p.2)

/-- main.py Database.get_user_rank lines 72-82: the configured owner id resolves
to owner first, then the persisted row's rank, else user. The MongoDB branch
(`user.get('rank', 'user') if user else 'user'`) has the same semantics. -/
def get_user_rank (ownerId : Int) (db : DB) (uid : Int) : String :=
  if uid = ownerId then "owner"
  else
    match db.lookup uid with
    | some r => r
    | none => "user"

/-- main.py Database.set_user_rank lines 84-96: `INSERT OR REPLACE INTO users`
keyed by user_id. -/
def set_user_rank (db : DB) (uid : Int) (rank : String) : DB :=
  ⟨(uid, rank) :: db.rows.filter (fun p => p.1 != uid)⟩

/-- main.py check_rank lines 137-147: the decorator's test
`RANKS.get(user_rank, 0) >= RANKS.get(required_rank, 0)`. -/
def check_rank_pred (ownerId : Int) (db : DB) (required_rank : String) (uid : Int) : Bool :=
  decide (mainRanksGet required_rank 0 ≤ mainRanksGet (get_user_rank ownerId db uid) 0)

/-- core.py Config lines 21-24: the owner id and the static DEV/SUDO/SUPPORT
allow-lists parsed from the environment. -/
structure Config where
  ownerId : Int
  devs : List Int
  sudos : List Int
  supports : List Int
  deriving DecidableEq

/-- core.py Config.get_rank lines 59-70. -/
def Config.get_rank (c : Config) (uid : Int) : String :=
  if uid = c.ownerId then "owner"
  else if uid ∈ c.devs then "dev"
  else if uid ∈ c.sudos then "sudo"
  else if uid ∈ c.supports then "support"
  else "user"

/-- core.py TelegramBot.check_rank lines 298-305:
`rank_hierarchy.get(user_rank, 1) >= rank_hierarchy.get(required_rank, 1)`. -/
def core_check_rank (c : Config) (uid : Int) (required_rank : String) : Bool :=
  decide (coreRanksGet required_rank 1 ≤ coreRanksGet (c.get_rank uid) 1)

/-- Outcomes of main.py setrank_command: the decorator's permission refusal,
the invalid-rank reply, or a successful write. -/
inductive SetrankOutcome
  | forbidden
  | invalidRank
  | success
  deriving DecidableEq

/-- main.py setrank_command lines 379-405 under its owner-gated check_rank
decorator, with the subject already parsed to a user id (the digits branch of
the handler; the usage and non-digit replies touch neither the rank check nor
the store). On `forbidden` the decorator replies and the handler body - hence
`set_user_rank` - is never invoked. -/
def setrank_step (ownerId : Int) (db : DB) (actor subject : Int) (new_rank : String) :
    SetrankOutcome × DB :=
  if check_rank_pred ownerId db "owner" actor then
    if mainRanksMem new_rank then
      (SetrankOutcome.success, set_user_rank db subject new_rank)
    else (SetrankOutcome.invalidRank, db)
  else (SetrankOutcome.forbidden, db)

/-- main.py check_rank decorator lines 137-147: the handler runs iff the rank
test passes. -/
def main_gate (ownerId : Int) (db : DB) (required_rank : String) (uid : Int) : Bool :=
  check_rank_pred ownerId db required_rank uid

/-- modules/admin.py check_rank lines 39-45: the wrapper body is
`return await func(message)` - it invokes the handler for every caller,
ignoring both the caller's rank and required_rank. -/
def admin_module_gate (required_rank : String) (uid : Int) : Bool := true

/-- modules/admin.py sban_command lines 239-272: once the wrapper runs the
handler, the transport call `bot.ban_chat_member` is reached whenever the chat
is a group and a target user was resolved - no further rank test occurs. -/
def sban_reaches_transport (uid : Int) (isGroup targetFound : Bool) : Bool :=
  admin_module_gate "admin" uid && isGroup && targetFound

/-- ASCII digit test, via the character's code point. -/
def isAsciiDigit (c : Char) : Bool := 48 ≤ c.toNat && c.toNat ≤ 57

/-- The ASCII whitespace characters Python `int()` strips. -/
def isPySpace (c : Char) : Bool :=
  c.toNat = 32 || c.toNat = 9 || c.toNat = 10 || c.toNat = 13 || c.toNat = 11 || c.toNat = 12

/-- Value of a digit string, most significant digit first. -/
def digitsVal (l : List Char) : Nat := l.foldl (fun a c => 10 * a + (c.toNat - 48)) 0

/-- Python int() digit-run validity after the leading digit: underscores are
allowed only singly and only between digits. -/
def pyDigitsTail : List Char → Bool
  | [] => true
  | c :: rest =>
    if c = '_' then
      match rest with
      | [] => false
      | d :: rest2 => isAsciiDigit d && pyDigitsTail rest2
    else isAsciiDigit c && pyDigitsTail rest

/-- Python int() digit-run validity: nonempty, starts with a digit. -/
def pyDigitsOk : List Char → Bool
  | [] => false
  | c :: rest => isAsciiDigit c && pyDigitsTail rest

/-- Numeric value of an underscore-grouped digit run. -/
def pyIntOfDigits (l : List Char) : Nat := digitsVal (l.filter (fun c => c != '_'))

/-- Sign-and-digit-run part of Python `int()`: an optional single sign, then an
underscore-grouped ASCII digit run; `none` models a ValueError. -/
def pyIntCore : List Char → Option Int
  | [] => none
  | c :: rest =>
    if c = '+' then (if pyDigitsOk rest then some (pyIntOfDigits rest : Int) else none)
    else if c = '-' then (if pyDigitsOk rest then some (-(pyIntOfDigits rest : Int)) else none)
    else (if pyDigitsOk (c :: rest) then some (pyIntOfDigits (c :: rest) : Int) else none)

/-- Python `int(s)` in base 10: strips surrounding ASCII whitespace, then an
optional single sign and an underscore-grouped ASCII digit run; `none` models
the ValueError raised on anything else. -/
def pyInt (s : String) : Option Int :=
  pyIntCore (((s.toList.dropWhile isPySpace).reverse.dropWhile isPySpace).reverse)

/-- main.py parse_time_duration lines 121-126: the multipliers dict, with no
seconds unit. -/
def multGet (c : Char) : Option Int :=
  if c = 'm' then some 60
  else if c = 'h' then some 3600
  else if c = 'd' then some 86400
  else if c = 'w' then some 604800
  else none

/-- main.py parse_time_duration lines 116-135: empty input gives 0; otherwise
the last character selects a multiplier (anything else gives 0) and the
preceding characters go through int(), a ValueError giving 0. -/
def parse_time_duration (duration : String) : Int :=
  match duration.toList.reverse with
  | [] => 0
  | c :: rest =>
    match multGet c with
    | none => 0
    | some mult =>
      match pyInt (String.mk rest.reverse) with
      | some n => n * mult
      | none => 0

/-- modules/admin.py parse_time_duration lines 8-27: a byte-for-byte duplicate
of main.py's function. -/
def admin_parse_time_duration (duration : String) : Int :=
  match duration.toList.reverse with
  | [] => 0
  | c :: rest =>
    match multGet c with
    | none => 0
    | some mult =>
      match pyInt (String.mk rest.reverse) with
      | some n => n * mult
      | none => 0

/-- Modules/adminstool.py line 19: the time_units dict, seconds included. -/
def timeUnits (c : Char) : Int :=
  if c = 's' then 1
  else if c = 'm' then 60
  else if c = 'h' then 3600
  else if c = 'd' then 86400
  else 604800

/-- ASCII model of Python str.lower(). -/
def asciiLower (c : Char) : Char :=
  if 65 ≤ c.toNat ∧ c.toNat ≤ 90 then Char.ofNat (c.toNat + 32) else c

/-- The regex match of Modules/adminstool.py line 20, anchored digits-then-unit
(digits modelled as ASCII), returning the amount and the unit character. -/
def timeMatch (l : List Char) : Option (Nat × Char) :=
  match l.reverse with
  | [] => none
  | u :: revds =>
    if (u = 's' || u = 'm' || u = 'h' || u = 'd' || u = 'w')
        && !revds.isEmpty && revds.all isAsciiDigit
    then some (digitsVal revds.reverse, u)
    else none

/-- Modules/adminstool.py AdminTools.parse_time lines 14-25: empty gives None;
otherwise the lowercased string must match digits-then-unit, giving
amount * unit seconds, else None. -/
def parse_time (time_str : String) : Option Int :=
  if time_str = "" then none
  else
    match timeMatch (time_str.toList.map asciiLower) with
    | some (n, u) => some ((n : Int) * timeUnits u)
    | none => none

/-- main.py ban_command lines 468-475: only a positive parsed duration yields an
until-date; 0 (malformed or absent duration) yields None, which the transport
treats as a permanent ban. -/
def ban_until (now : Int) (duration_seconds : Int) : Option Int :=
  if 0 < duration_seconds then some (now + duration_seconds) else none

/-- Modelled from the spec: the kind of a scheduled moderation action (§3). -/
inductive ActionKind
  | ban
  | mute
  deriving DecidableEq

/-- Modelled from the spec: the status of a ScheduledAction (§3). -/
inductive ActionStatus
  | pending
  | reversed
  | cancelled
  deriving DecidableEq

/-- Modelled from the spec: a ScheduledAction row of the durable
scheduled_actions table (§3); the TemporaryActionScheduler itself is absent
from src/, where AdminTools only declares in-memory dicts
(Modules/adminstool.py lines 10-12) and the handlers delegate expiry to the
transport's until_date. -/
structure ScheduledAction where
  action_id : Nat
  scope_id : Int
  subject_id : Int
  kind : ActionKind
  issued_at : Int
  expires_at : Int
  status : ActionStatus
  deriving DecidableEq

/-- Modelled from the spec: the observable result of startup recovery - the
reverse() calls issued during recovery, the timers re-armed for future
expiries, and the store as rewritten. -/
structure RecoveryState where
  reversals : List (Int × Int × ActionKind)
  timers : List (Nat × Int)
  store : List ScheduledAction
  deriving DecidableEq

/-- Modelled from the spec: recovery processing of one stored row (§4.2). A
Pending row whose expires_at is already ≤ now has its wakeup clamped to fire
immediately: reverse(scope, subject, kind) is invoked and the row marked
Reversed; a Pending row with a future expiry re-arms a timer at expires_at;
terminal rows are kept untouched. -/
def recoverOne (now : Int) (st : RecoveryState) (a : ScheduledAction) : RecoveryState :=
  if a.status = ActionStatus.pending then
    if a.expires_at ≤ now then
      ⟨st.reversals ++ [(a.scope_id, a.subject_id, a.kind)],
       st.timers,
       st.store ++ [⟨a.action_id, a.scope_id, a.subject_id, a.kind, a.issued_at,
                     a.expires_at, ActionStatus.reversed⟩]⟩
    else
      ⟨st.reversals, st.timers ++ [(a.action_id, a.expires_at)], st.store ++ [a]⟩
  else
    ⟨st.reversals, st.timers, st.store ++ [a]⟩

/-- Modelled from the spec: startup recovery (§4.2) - load every stored entry
from durable storage and process it, starting from an empty in-memory state. -/
def recover (now : Int) (stored : List ScheduledAction) : RecoveryState :=
  stored.foldl (recoverOne now) ⟨[], [], []⟩

/-- C1: rank resolution in main.py's Database.get_user_rank is total and
prioritised as claimed - the configured owner id resolves to owner even when a
persisted row exists for it; any other id resolves to its persisted row's rank
when a row exists and to user otherwise. -/
theorem C1_rank_resolution (ownerId : Int) (db : DB) (uid : Int) :
    (uid = ownerId → get_user_rank ownerId db uid = "owner")
    ∧ (uid ≠ ownerId →
        get_user_rank ownerId db uid = (DB.lookup db uid).getD "user") := by
  constructor
  · intro h
    simp [get_user_rank, h]
  · intro h
    simp only [get_user_rank, if_neg h]
    cases DB.lookup db uid <;> rfl

theorem C1_rank_resolution_witness :
    get_user_rank 1001 ⟨[(1001, "sudo"), (3003, "dev")]⟩ 1001 = "owner"
    ∧ get_user_rank 1001 ⟨[(1001, "sudo"), (3003, "dev")]⟩ 3003 = "dev"
    ∧ get_user_rank 1001 ⟨[(1001, "sudo"), (3003, "dev")]⟩ 4004 = "user" :=
  ⟨(C1_rank_resolution 1001 ⟨[(1001, "sudo"), (3003, "dev")]⟩ 1001).1 rfl,
   ((C1_rank_resolution 1001 ⟨[(1001, "sudo"), (3003, "dev")]⟩ 3003).2
      (by decide)).trans (by decide),
   ((C1_rank_resolution 1001 ⟨[(1001, "sudo"), (3003, "dev")]⟩ 4004).2
      (by decide)).trans (by decide)⟩

/-- C2: refuted as stated - main.py's RANKS (and the identical table inside
modules/admin.py's check_rank) assigns sudo the value 2 and admin the value 3,
and has no support entry at all (lookups fall through to the default), so the
claimed uniform table User 1, Support 2, Sudo 3, Dev 4, Owner 5 does not hold
at every call site. -/
theorem C2_rank_tables_counterexample :
    mainRanksGet "sudo" 0 = 2 ∧ mainRanksGet "support" 0 = 0
    ∧ adminRanksGet "sudo" 0 = 2 ∧ adminRanksGet "support" 0 = 0
    ∧ mainRanksMem "support" = false := by decide

/-- C2 (amended): core.py's check_rank hierarchy is user 1, support 2, sudo 3,
dev 4, owner 5; main.py's RANKS and the identical table in modules/admin.py
instead assign user 1, sudo 2, admin 3, dev 4, owner 5 and contain no support
key. -/
theorem C2_rank_tables_amended :
    (coreRanksGet "user" 1 = 1 ∧ coreRanksGet "support" 1 = 2
      ∧ coreRanksGet "sudo" 1 = 3 ∧ coreRanksGet "dev" 1 = 4
      ∧ coreRanksGet "owner" 1 = 5)
    ∧ (mainRanksGet "user" 0 = 1 ∧ mainRanksGet "sudo" 0 = 2
      ∧ mainRanksGet "admin" 0 = 3 ∧ mainRanksGet "dev" 0 = 4
      ∧ mainRanksGet "owner" 0 = 5 ∧ mainRanksMem "support" = false)
    ∧ (∀ (k : String) (d : Nat), adminRanksGet k d = mainRanksGet k d) :=
  ⟨by decide, by decide, fun _ _ => rfl⟩

/-- C3: both authorization checks are monotone in the required rank under their
own tables, and each returns exactly the comparison of the resolved rank's
value with the required rank's value. -/
theorem C3_authorize_monotone :
    (∀ (ownerId : Int) (db : DB) (uid : Int) (r1 r2 : String),
        mainRanksGet r1 0 < mainRanksGet r2 0 →
        check_rank_pred ownerId db r2 uid = true →
        check_rank_pred ownerId db r1 uid = true)
    ∧ (∀ (ownerId : Int) (db : DB) (uid : Int) (minimum : String),
        check_rank_pred ownerId db minimum uid = true ↔
        mainRanksGet minimum 0 ≤ mainRanksGet (get_user_rank ownerId db uid) 0)
    ∧ (∀ (c : Config) (uid : Int) (r1 r2 : String),
        coreRanksGet r1 1 < coreRanksGet r2 1 →
        core_check_rank c uid r2 = true →
        core_check_rank c uid r1 = true)
    ∧ (∀ (c : Config) (uid : Int) (minimum : String),
        core_check_rank c uid minimum = true ↔
        coreRanksGet minimum 1 ≤ coreRanksGet (c.get_rank uid) 1) := by
  refine ⟨?_, ?_, ?_, ?_⟩
  · intro o db uid r1 r2 hlt h2
    simp only [check_rank_pred, decide_eq_true_eq] at h2 ⊢
    omega
  · intro o db uid m
    simp [check_rank_pred]
  · intro c uid r1 r2 hlt h2
    simp only [core_check_rank, decide_eq_true_eq] at h2 ⊢
    omega
  · intro c uid m
    simp [core_check_rank]

theorem C3_authorize_monotone_witness :
    check_rank_pred 1001 ⟨[(2002, "admin")]⟩ "sudo" 2002 = true :=
  C3_authorize_monotone.1 1001 ⟨[(2002, "admin")]⟩ 2002 "sudo" "admin"
    (by decide) (by decide)

/-- C4: any actor whose resolved rank value is below dev's (4) also fails
setrank's owner gate (5): the decorator refuses, the handler body never runs,
and the store is returned unchanged. -/
theorem C4_setrank_forbidden_below_dev
    (ownerId : Int) (db : DB) (actor subject : Int) (new_rank : String)
    (h : mainRanksGet (get_user_rank ownerId db actor) 0 < mainRanksGet "dev" 0) :
    setrank_step ownerId db actor subject new_rank = (SetrankOutcome.forbidden, db) := by
  have hg : check_rank_pred ownerId db "owner" actor = false := by
    simp only [check_rank_pred, decide_eq_false_iff_not, not_le]
    have h4 : mainRanksGet "dev" 0 = 4 := rfl
    have h5 : mainRanksGet "owner" 0 = 5 := rfl
    omega
  simp [setrank_step, hg]

theorem C4_setrank_forbidden_below_dev_witness :
    setrank_step 1001 ⟨[(2002, "admin")]⟩ 2002 3003 "sudo" =
      (SetrankOutcome.forbidden, ⟨[(2002, "admin")]⟩) :=
  C4_setrank_forbidden_below_dev 1001 ⟨[(2002, "admin")]⟩ 2002 3003 "sudo" (by decide)

/-- C5: refuted as stated - setrank targeting the configured owner id does not
fail (there is no InvalidTarget path in the code): the owner (id 1001) setting
a rank for subject 1001 succeeds and a persisted rank row for the owner id is
written. -/
theorem C5_owner_target_counterexample :
    (setrank_step 1001 ⟨[]⟩ 1001 1001 "sudo").1 = SetrankOutcome.success
    ∧ DB.lookup (setrank_step 1001 ⟨[]⟩ 1001 1001 "sudo").2 1001 = some "sudo" := by
  decide

/-- C5 (amended): for every actor passing the owner-rank gate and every valid
rank name, setrank targeting the configured owner id succeeds and writes a
persisted rank row for the owner id - it never fails with InvalidTarget (and no
clear-override operation exists) - though rank resolution for the owner id is
unaffected, still returning owner. -/
theorem C5_owner_target_amended
    (ownerId : Int) (db : DB) (actor : Int) (new_rank : String)
    (hgate : check_rank_pred ownerId db "owner" actor = true)
    (hrank : mainRanksMem new_rank = true) :
    setrank_step ownerId db actor ownerId new_rank
      = (SetrankOutcome.success, set_user_rank db ownerId new_rank)
    ∧ DB.lookup (set_user_rank db ownerId new_rank) ownerId = some new_rank
    ∧ get_user_rank ownerId (set_user_rank db ownerId new_rank) ownerId = "owner" := by
  refine ⟨by simp [setrank_step, hgate, hrank], ?_, by simp [get_user_rank]⟩
  simp [DB.lookup, set_user_rank, List.find?]

theorem C5_owner_target_amended_witness :
    setrank_step 1001 ⟨[]⟩ 1001 1001 "sudo"
      = (SetrankOutcome.success, set_user_rank ⟨[]⟩ 1001 "sudo")
    ∧ DB.lookup (set_user_rank ⟨[]⟩ 1001 "sudo") 1001 = some "sudo"
    ∧ get_user_rank 1001 (set_user_rank ⟨[]⟩ 1001 "sudo") 1001 = "owner" :=
  C5_owner_target_amended 1001 ⟨[]⟩ 1001 "sudo" (by decide) (by decide)

/-- C6: evaluation of the bug - a caller with resolved rank user (value 1)
fails main.py's admin gate used by the non-silent ban command, yet
modules/admin.py's silent sban still reaches the ban transport for that same
caller, because its check_rank wrapper invokes the handler unconditionally for
every caller and every required rank. -/
theorem C6_silent_ban_unchecked :
    main_gate 1001 ⟨[]⟩ "admin" 9999 = false
    ∧ sban_reaches_transport 9999 true true = true
    ∧ (∀ (r : String) (uid : Int), admin_module_gate r uid = true) :=
  ⟨by decide, rfl, fun _ _ => rfl⟩

/-- C9: a misspelled required rank gates nothing - main.py's check defaults the
unknown required rank to 0 and every resolved rank's value is at least 0, and
core.py's check defaults it to 1 while every resolved rank's value is at least
1, so both checks admit every user. -/
theorem C9_unknown_rank_admits_all :
    (∀ required_rank : String, mainRanksMem required_rank = false →
      ∀ (ownerId : Int) (db : DB) (uid : Int),
        check_rank_pred ownerId db required_rank uid = true)
    ∧ (∀ required_rank : String, coreRanksMem required_rank = false →
      ∀ (c : Config) (uid : Int), core_check_rank c uid required_rank = true) := by
  constructor
  · intro r hr o db uid
    simp only [mainRanksMem, Bool.or_eq_false_iff, decide_eq_false_iff_not] at hr
    obtain ⟨⟨⟨⟨h1, h2⟩, h3⟩, h4⟩, h5⟩ := hr
    have h0 : mainRanksGet r 0 = 0 := by simp [mainRanksGet, h1, h2, h3, h4, h5]
    simp [check_rank_pred, h0]
  · intro r hr c uid
    simp only [coreRanksMem, Bool.or_eq_false_iff, decide_eq_false_iff_not] at hr
    obtain ⟨⟨⟨⟨h1, h2⟩, h3⟩, h4⟩, h5⟩ := hr
    have h0 : coreRanksGet r 1 = 1 := by simp [coreRanksGet, h1, h2, h3, h4, h5]
    have hge : 1 ≤ coreRanksGet (c.get_rank uid) 1 := by
      unfold coreRanksGet
      split_ifs <;> omega
    simp only [core_check_rank, h0, decide_eq_true_eq]
    exact hge

theorem C9_unknown_rank_admits_all_witness :
    check_rank_pred 1001 ⟨[]⟩ "adminn" 42 = true
    ∧ core_check_rank ⟨1001, [], [], []⟩ 42 "adminn" = true :=
  ⟨C9_unknown_rank_admits_all.1 "adminn" (by decide) 1001 ⟨[]⟩ 42,
   C9_unknown_rank_admits_all.2 "adminn" (by decide) ⟨1001, [], [], []⟩ 42⟩

theorem recoverOne_rev_mono (now : Int) (b : ScheduledAction) (st : RecoveryState)
    (x : Int × Int × ActionKind) (hx : x ∈ st.reversals) :
    x ∈ (recoverOne now st b).reversals := by
  unfold recoverOne
  split_ifs <;> simp [hx]

theorem recoverOne_tim_mono (now : Int) (b : ScheduledAction) (st : RecoveryState)
    (x : Nat × Int) (hx : x ∈ st.timers) :
    x ∈ (recoverOne now st b).timers := by
  unfold recoverOne
  split_ifs <;> simp [hx]

theorem foldl_rev_mono (now : Int) (l : List ScheduledAction) (st : RecoveryState)
    (x : Int × Int × ActionKind) (hx : x ∈ st.reversals) :
    x ∈ (l.foldl (recoverOne now) st).reversals := by
  induction l generalizing st with
  | nil => simpa using hx
  | cons b t ih => exact ih _ (recoverOne_rev_mono now b st x hx)

theorem foldl_tim_mono (now : Int) (l : List ScheduledAction) (st : RecoveryState)
    (x : Nat × Int) (hx : x ∈ st.timers) :
    x ∈ (l.foldl (recoverOne now) st).timers := by
  induction l generalizing st with
  | nil => simpa using hx
  | cons b t ih => exact ih _ (recoverOne_tim_mono now b st x hx)

theorem recover_go (now : Int) (a : ScheduledAction)
    (hp : a.status = ActionStatus.pending) :
    ∀ (l : List ScheduledAction) (st : RecoveryState), a ∈ l →
    (a.expires_at ≤ now →
      (a.scope_id, a.subject_id, a.kind) ∈ (l.foldl (recoverOne now) st).reversals)
    ∧ (now < a.expires_at →
      (a.action_id, a.expires_at) ∈ (l.foldl (recoverOne now) st).timers) := by
  intro l
  induction l with
  | nil => intro st ha; cases ha
  | cons b t ih =>
    intro st ha
    rcases List.mem_cons.mp ha with rfl | hmem
    · constructor
      · intro hexp
        rw [List.foldl_cons]
        apply foldl_rev_mono
        unfold recoverOne
        rw [if_pos hp, if_pos hexp]
        simp
      · intro hfut
        rw [List.foldl_cons]
        apply foldl_tim_mono
        unfold recoverOne
        rw [if_pos hp, if_neg (by omega)]
        simp
    · exact ih _ hmem

/-- C8: startup recovery never drops a Pending entry - every stored Pending
entry whose expiry is already in the past has its reverse() call invoked during
recovery, and every other Pending entry gets a wakeup re-armed at its expiry. -/
theorem C8_recovery_no_loss (now : Int) (stored : List ScheduledAction)
    (a : ScheduledAction) (ha : a ∈ stored) (hp : a.status = ActionStatus.pending) :
    (a.expires_at ≤ now →
      (a.scope_id, a.subject_id, a.kind) ∈ (recover now stored).reversals)
    ∧ (now < a.expires_at →
      (a.action_id, a.expires_at) ∈ (recover now stored).timers) :=
  recover_go now a hp stored ⟨[], [], []⟩ ha

theorem C8_recovery_no_loss_witness :
    (77, 88, ActionKind.mute) ∈
      (recover 61 [⟨5, 77, 88, ActionKind.mute, 0, 60, ActionStatus.pending⟩]).reversals :=
  (C8_recovery_no_loss 61 [⟨5, 77, 88, ActionKind.mute, 0, 60, ActionStatus.pending⟩]
    ⟨5, 77, 88, ActionKind.mute, 0, 60, ActionStatus.pending⟩
    (by decide) rfl).1 (by decide)

theorem isAsciiDigit_bounds {c : Char} (h : isAsciiDigit c = true) :
    48 ≤ c.toNat ∧ c.toNat ≤ 57 := by
  simpa [isAsciiDigit] using h

theorem digit_not_space {c : Char} (h : isAsciiDigit c = true) : isPySpace c = false := by
  have hb := isAsciiDigit_bounds h
  simp only [isPySpace, Bool.or_eq_false_iff, decide_eq_false_iff_not]
  omega

theorem digit_ne_underscore {c : Char} (h : isAsciiDigit c = true) : ¬c = '_' := by
  intro hc
  subst hc
  exact absurd h (by decide)

theorem digit_ne_plus {c : Char} (h : isAsciiDigit c = true) : ¬c = '+' := by
  intro hc
  subst hc
  exact absurd h (by decide)

theorem digit_ne_minus {c : Char} (h : isAsciiDigit c = true) : ¬c = '-' := by
  intro hc
  subst hc
  exact absurd h (by decide)

theorem digit_asciiLower {c : Char} (h : isAsciiDigit c = true) : asciiLower c = c := by
  have hb := isAsciiDigit_bounds h
  unfold asciiLower
  rw [if_neg]
  omega

theorem dropWhile_digits (l : List Char) (h : l.all isAsciiDigit = true) :
    l.dropWhile isPySpace = l := by
  cases l with
  | nil => rfl
  | cons c t =>
    have hc : isAsciiDigit c = true := by
      rw [List.all_cons, Bool.and_eq_true] at h
      exact h.1
    rw [List.dropWhile_cons, digit_not_space hc]
    simp

theorem pyDigitsTail_of_all (l : List Char) (h : l.all isAsciiDigit = true) :
    pyDigitsTail l = true := by
  induction l with
  | nil => rfl
  | cons c t ih =>
    rw [List.all_cons, Bool.and_eq_true] at h
    unfold pyDigitsTail
    rw [if_neg (digit_ne_underscore h.1)]
    simp [h.1, ih h.2]

theorem pyDigitsOk_of_all (l : List Char) (hne : l ≠ []) (h : l.all isAsciiDigit = true) :
    pyDigitsOk l = true := by
  obtain ⟨c, t, rfl⟩ := List.exists_cons_of_ne_nil hne
  rw [List.all_cons, Bool.and_eq_true] at h
  unfold pyDigitsOk
  simp [h.1, pyDigitsTail_of_all t h.2]

theorem filter_underscore_digits (l : List Char) (h : l.all isAsciiDigit = true) :
    l.filter (fun c => c != '_') = l := by
  rw [List.filter_eq_self]
  intro a ha
  rw [List.all_eq_true] at h
  simpa using digit_ne_underscore (by simpa using h a ha)

theorem pyInt_digits (l : List Char) (hne : l ≠ []) (hd : l.all isAsciiDigit = true) :
    pyInt (String.mk l) = some ((digitsVal l : Nat) : Int) := by
  have hrev : l.reverse.all isAsciiDigit = true := by
    rw [List.all_reverse]
    exact hd
  obtain ⟨c, t, rfl⟩ := List.exists_cons_of_ne_nil hne
  have hc : isAsciiDigit c = true := by
    rw [List.all_cons, Bool.and_eq_true] at hd
    exact hd.1
  unfold pyInt
  rw [show (String.mk (c :: t)).toList = c :: t from rfl]
  rw [dropWhile_digits _ hd, dropWhile_digits _ hrev, List.reverse_reverse]
  simp only [pyIntCore]
  rw [if_neg (digit_ne_plus hc), if_neg (digit_ne_minus hc)]
  rw [pyDigitsOk_of_all _ (List.cons_ne_nil c t) hd]
  simp [pyIntOfDigits, filter_underscore_digits _ hd]

theorem mk_ne_empty (c : Char) (t : List Char) : String.mk (c :: t) ≠ "" := by
  intro h
  have h2 : (String.mk (c :: t)).data = ("" : String).data := congrArg String.data h
  have h3 : ("" : String).data = [] := rfl
  rw [h3] at h2
  exact List.cons_ne_nil c t h2

theorem ptd_char (rest : List Char) (c : Char) :
    parse_time_duration (String.mk (rest ++ [c])) =
      (match multGet c with
       | none => 0
       | some mult =>
         match pyInt (String.mk rest) with
         | some n => n * mult
         | none => 0) := by
  unfold parse_time_duration
  rw [show (String.mk (rest ++ [c])).toList = rest ++ [c] from rfl]
  rw [List.reverse_append]
  simp [List.reverse_reverse]

theorem map_asciiLower_digits (l : List Char) (h : l.all isAsciiDigit = true) :
    l.map asciiLower = l := by
  induction l with
  | nil => rfl
  | cons c t ih =>
    rw [List.all_cons, Bool.and_eq_true] at h
    simp [digit_asciiLower h.1, ih h.2]

theorem parse_time_unit (u : Char) (ds : List Char)
    (hu : (u = 's' || u = 'm' || u = 'h' || u = 'd' || u = 'w') = true)
    (hul : asciiLower u = u)
    (hne : ds ≠ []) (hd : ds.all isAsciiDigit = true) :
    parse_time (String.mk (ds ++ [u])) = some ((digitsVal ds : Int) * timeUnits u) := by
  obtain ⟨c, t, hds⟩ := List.exists_cons_of_ne_nil hne
  have hne2 : ds ++ [u] ≠ [] := by simp [hds]
  obtain ⟨c2, t2, hds2⟩ := List.exists_cons_of_ne_nil hne2
  unfold parse_time
  rw [hds2, if_neg (mk_ne_empty c2 t2), ← hds2]
  rw [show (String.mk (ds ++ [u])).toList = ds ++ [u] from rfl]
  rw [List.map_append, map_asciiLower_digits _ hd]
  unfold timeMatch
  rw [show (List.map asciiLower [u]) = [u] from by simp [hul]]
  rw [List.reverse_append]
  simp only [List.reverse_cons, List.reverse_nil, List.nil_append, List.singleton_append]
  have hrevne : ds.reverse ≠ [] := by
    simpa [List.reverse_eq_nil_iff] using hne
  have hrevall : ds.reverse.all isAsciiDigit = true := by
    rw [List.all_reverse]
    exact hd
  rw [show ds.reverse.isEmpty = false from by
    cases hrev : ds.reverse with
    | nil => exact absurd hrev hrevne
    | cons a b => rfl]
  simp [hu, hrevall, List.reverse_reverse]

/-- C7: evaluation of the bug - '30s' (and '1x') are malformed for main.py's
parse_time_duration, whose multipliers know no seconds unit; instead of a
defined error it silently returns 0, and ban_command maps 0 to an absent
until-date, i.e. a permanent ban. The AdminTools variant shows the claimed
behaviour: a defined error (None) for malformed input. -/
theorem C7_malformed_duration_permanent :
    parse_time_duration "30s" = 0
    ∧ admin_parse_time_duration "30s" = 0
    ∧ ban_until 1000 (parse_time_duration "30s") = none
    ∧ parse_time_duration "1x" = 0
    ∧ parse_time "1x" = none
    ∧ parse_time "30s" = some 30 := by decide

/-- C10: refuted as stated - the input '-5m' is not digits-followed-by-unit,
yet main.py's and modules/admin.py's parsers return -300 rather than the
claimed 0, because Python int() accepts a sign; AdminTools.parse_time returns
None on it. -/
theorem C10_parsers_counterexample :
    parse_time_duration "-5m" = -300
    ∧ admin_parse_time_duration "-5m" = -300
    ∧ parse_time "-5m" = none := by decide

/-- C10 (amended): the two parse_time_duration copies are extensionally equal
everywhere; on digits followed by m/h/d/w all three parsers agree on
digits-times-multiplier; on digits followed by 's' the first two give 0 while
AdminTools gives the seconds; otherwise the first two give int(prefix) times
the multiplier whenever the last character is a known unit and the prefix
parses as a Python integer (sign, whitespace and underscore grouping included),
and 0 in every remaining case. -/
theorem C10_parsers_amended :
    (∀ s : String, admin_parse_time_duration s = parse_time_duration s)
    ∧ (∀ (ds : List Char) (u : Char), ds ≠ [] → ds.all isAsciiDigit = true →
        (u = 'm' ∨ u = 'h' ∨ u = 'd' ∨ u = 'w') →
        parse_time_duration (String.mk (ds ++ [u])) = (digitsVal ds : Int) * timeUnits u
        ∧ parse_time (String.mk (ds ++ [u])) = some ((digitsVal ds : Int) * timeUnits u))
    ∧ (∀ ds : List Char, ds ≠ [] → ds.all isAsciiDigit = true →
        parse_time_duration (String.mk (ds ++ ['s'])) = 0
        ∧ parse_time (String.mk (ds ++ ['s'])) = some (digitsVal ds))
    ∧ (∀ (rest : List Char) (c : Char), multGet c = none →
        parse_time_duration (String.mk (rest ++ [c])) = 0)
    ∧ (∀ (rest : List Char) (c : Char) (mult : Int), multGet c = some mult →
        pyInt (String.mk rest) = none →
        parse_time_duration (String.mk (rest ++ [c])) = 0)
    ∧ (∀ (rest : List Char) (c : Char) (mult n : Int), multGet c = some mult →
        pyInt (String.mk rest) = some n →
        parse_time_duration (String.mk (rest ++ [c])) = n * mult)
    ∧ parse_time_duration "" = 0 ∧ parse_time "" = none := by
  refine ⟨fun s => rfl, ?_, ?_, ?_, ?_, ?_, rfl, by decide⟩
  · intro ds u hne hd hu
    constructor
    · rw [ptd_char, pyInt_digits ds hne hd]
      rcases hu with rfl | rfl | rfl | rfl <;> rfl
    · rcases hu with rfl | rfl | rfl | rfl <;>
        exact parse_time_unit _ ds (by decide) (by decide) hne hd
  · intro ds hne hd
    refine ⟨?_, ?_⟩
    · rw [ptd_char, show multGet 's' = none from rfl]
    · have h := parse_time_unit 's' ds (by decide) (by decide) hne hd
      simpa [timeUnits] using h
  · intro rest c hm
    rw [ptd_char, hm]
  · intro rest c mult hm hp
    rw [ptd_char, hm, hp]
  · intro rest c mult n hm hp
    rw [ptd_char, hm, hp]

theorem C10_parsers_amended_witness :
    parse_time_duration (String.mk (['4', '2'] ++ ['h']))
        = (digitsVal ['4', '2'] : Int) * timeUnits 'h'
    ∧ parse_time (String.mk (['3', '0'] ++ ['s'])) = some (digitsVal ['3', '0']) :=
  ⟨(C10_parsers_amended.2.1 ['4', '2'] 'h' (by decide) (by decide)
      (Or.inr (Or.inl rfl))).1,
   (C10_parsers_amended.2.2.1 ['3', '0'] (by decide) (by decide)).2⟩

end Hypergriot
